import Mathlib

/-!
# F1 Season Tracker — verification of the standings/scoring engine

Shallow embedding of the scoring core of the F1 Season Tracker web app
(`src/App.jsx` and the multi-season variant): the points table
(`computePointsFor`), the result normalizer (`normalizeResults`), the event
scorer (`scoreEventEntries`), the bulk replace operation
(`bulkReplaceEventResults`) and the standings builder (`buildStandings`).

Modelling conventions:
* JavaScript numbers that hold positions/points are modelled as `Int`.
* JavaScript strings (ids, statuses, event types) are modelled as `String`;
  `localeCompare` is modelled by the lexicographic linear order on `String`.
* A raw result field that may be absent or non-numeric (`Number(x)` gives
  `NaN`) is modelled as `Option Int`; an absent boolean flag as `Option Bool`.
* `Array.prototype.sort` with a comparator (stable in modern engines) is
  modelled by `List.insertionSort`, a stable sort.
* JS `Map` objects are modelled as functions `String → Option _`
  (`Map.get` returning `undefined` is `none`).
-/

namespace F1

/-- A team record: `{ id, name, color }`. -/
structure Team where
  id : String
  name : String
  color : String
deriving DecidableEq, Repr

/-- A driver record: `{ id, name, country, teamId }` (`teamId = ""` means
unaffiliated). -/
structure Driver where
  id : String
  name : String
  country : String
  teamId : String
deriving DecidableEq, Repr

/-- An event record: `{ id, name, round, date, type }` with
`type ∈ {"GP", "Sprint"}` in well-formed data. -/
structure Event where
  id : String
  name : String
  round : Int
  date : String
  type : String
deriving DecidableEq, Repr

/-- A raw result record as it reaches `normalizeResults`: the position may be
missing or non-numeric (`none`), the status is an arbitrary string, the
fastest-lap flag may be absent (`none`, i.e. JS `undefined`). -/
structure RawResult where
  eventId : String
  driverId : String
  position : Option Int
  status : String
  fastestLap : Option Bool
deriving DecidableEq, Repr

/-- A result entry in the shape `buildStandings` consumes:
`{ eventId, driverId, position, status, fastestLap }` with a numeric position
and the status one of `"FIN" | "DNF" | "DNS"` in normalized data. -/
structure ResultEntry where
  eventId : String
  driverId : String
  position : Int
  status : String
  fastestLap : Bool
deriving DecidableEq, Repr

/-! ## Points table (`computePointsFor`) -/

/-- `const RACE_POINTS = [25, 18, 15, 12, 10, 8, 6, 4, 2, 1];` -/
def RACE_POINTS : List Int := [25, 18, 15, 12, 10, 8, 6, 4, 2, 1]

/-- `const SPRINT_POINTS = [8, 7, 6, 5, 4, 3, 2, 1];` -/
def SPRINT_POINTS : List Int := [8, 7, 6, 5, 4, 3, 2, 1]

/-- `computePointsFor(position, type)`: the sprint table for a `"Sprint"`
event, the race table otherwise, with an explicit bounds check and `0` out of
range. -/
def computePointsFor (position : Int) («type» : String) : Int :=
  if «type» = "Sprint" then
    if 1 ≤ position ∧ position ≤ (SPRINT_POINTS.length : Int) then
      SPRINT_POINTS.getD (position - 1).toNat 0
    else 0
  else
    if 1 ≤ position ∧ position ≤ (RACE_POINTS.length : Int) then
      RACE_POINTS.getD (position - 1).toNat 0
    else 0

/-- Spec table for GrandPrix (§4.1: positions 1–10 give
25,18,15,12,10,8,6,4,2,1; 0 outside). Written from the spec's words, to be
compared with `computePointsFor`. -/
def gpPointsSpec (p : Int) : Int :=
  if p = 1 then 25 else if p = 2 then 18 else if p = 3 then 15
  else if p = 4 then 12 else if p = 5 then 10 else if p = 6 then 8
  else if p = 7 then 6 else if p = 8 then 4 else if p = 9 then 2
  else if p = 10 then 1 else 0

/-- Spec table for Sprint (§4.1: positions 1–8 give 8,7,6,5,4,3,2,1; 0
outside). Written from the spec's words. -/
def sprintPointsSpec (p : Int) : Int :=
  if p = 1 then 8 else if p = 2 then 7 else if p = 3 then 6
  else if p = 4 then 5 else if p = 5 then 4 else if p = 6 then 3
  else if p = 7 then 2 else if p = 8 then 1 else 0

/-! ## Lexicographic comparator machinery

The JS sort comparators are chains `key₁ diff || key₂ diff || …`; as an
ordering relation such a chain is the lexicographic preorder below. -/

/-- `keyLe k rest a b` holds when `a` sorts no later than `b` under a
comparator that first compares the key `k` and falls back to `rest` on a
tie. -/
def keyLe {α β : Type} [LinearOrder β] (k : α → β) (rest : α → α → Prop)
    (a b : α) : Prop :=
  k a < k b ∨ (k a = k b ∧ rest a b)

instance keyLe.decidableRel {α β : Type} [LinearOrder β] (k : α → β)
    (rest : α → α → Prop) [DecidableRel rest] : DecidableRel (keyLe k rest) :=
  fun a b => inferInstanceAs (Decidable (k a < k b ∨ (k a = k b ∧ rest a b)))

instance keyLe.isTotal {α β : Type} [LinearOrder β] (k : α → β)
    (rest : α → α → Prop) [IsTotal α rest] : IsTotal α (keyLe k rest) := by
  constructor
  intro a b
  rcases lt_trichotomy (k a) (k b) with h | h | h
  · exact Or.inl (Or.inl h)
  · rcases IsTotal.total (r := rest) a b with hr | hr
    · exact Or.inl (Or.inr ⟨h, hr⟩)
    · exact Or.inr (Or.inr ⟨h.symm, hr⟩)
  · exact Or.inr (Or.inl h)

instance keyLe.isTrans {α β : Type} [LinearOrder β] (k : α → β)
    (rest : α → α → Prop) [IsTrans α rest] : IsTrans α (keyLe k rest) := by
  constructor
  rintro a b c (hab | ⟨hab, hab'⟩) (hbc | ⟨hbc, hbc'⟩)
  · exact Or.inl (lt_trans hab hbc)
  · exact Or.inl (hbc ▸ hab)
  · exact Or.inl (hab ▸ hbc)
  · exact Or.inr ⟨hab.trans hbc, Trans.trans hab' hbc'⟩

/-! ## Result normalizer (`normalizeResults`) -/

/-- JS `Number(r.position) || 1`: a missing/non-numeric position (`NaN`) and
the value `0` are falsy and give the fallback `1`. -/
def jsNumOr : Option Int → Int → Int
  | none, d => d
  | some n, d => if n = 0 then d else n

/-- JS `!!r.fastestLap`: an absent flag is falsy. -/
def jsTruthy (b : Option Bool) : Bool := b.getD false

/-- The per-entry body of `normalizeResults`'s `.map`:
`{ ...r, position: Math.max(1, Number(r.position) || 1), status: …, fastestLap: !!r.fastestLap }`. -/
def normOne (r : RawResult) : RawResult :=
  { r with
    position := some (max 1 (jsNumOr r.position 1))
    status := if r.status = "DNF" then "DNF"
              else if r.status = "DNS" then "DNS" else "FIN"
    fastestLap := some (jsTruthy r.fastestLap) }

/-- The numeric value of a raw position used by the sort comparator (after
the `.map` every position is `some _`, so the default is never reached). -/
def posVal (r : RawResult) : Int := r.position.getD 1

/-- The tie-break tail of the normalizer's comparator: `a.position - b.position`. -/
def rawPosLe (a b : RawResult) : Prop := posVal a ≤ posVal b

instance rawPosLe.decidableRel : DecidableRel rawPosLe :=
  fun a b => inferInstanceAs (Decidable (posVal a ≤ posVal b))

instance rawPosLe.isTotal : IsTotal RawResult rawPosLe :=
  ⟨fun a b => le_total (posVal a) (posVal b)⟩

instance rawPosLe.isTrans : IsTrans RawResult rawPosLe :=
  ⟨fun _ _ _ hab hbc => le_trans hab hbc⟩

/-- The normalizer's sort order:
`a.eventId.localeCompare(b.eventId) || a.position - b.position`. -/
def rawLe : RawResult → RawResult → Prop :=
  keyLe (fun r => r.eventId) rawPosLe

instance rawLe.decidableRel : DecidableRel rawLe :=
  inferInstanceAs (DecidableRel (keyLe (fun r : RawResult => r.eventId) rawPosLe))

instance rawLe.isTotal : IsTotal RawResult rawLe :=
  inferInstanceAs (IsTotal RawResult (keyLe (fun r : RawResult => r.eventId) rawPosLe))

instance rawLe.isTrans : IsTrans RawResult rawLe :=
  inferInstanceAs (IsTrans RawResult (keyLe (fun r : RawResult => r.eventId) rawPosLe))

/-- `normalizeResults(list)`: map every entry through the sanitizer, then sort
by `(eventId, position)`. -/
def normalizeResults (list : List RawResult) : List RawResult :=
  (list.map normOne).insertionSort rawLe

/-- `bulkReplaceEventResults(eventId, entries)`: drop the previous results of
the event and normalize the rest together with the new entries. -/
def bulkReplaceEventResults (prev : List RawResult) (eventId : String)
    (entries : List RawResult) : List RawResult :=
  normalizeResults (prev.filter (fun r => !(r.eventId = eventId : Bool)) ++ entries)

/-! ## Event scorer (`scoreEventEntries`) -/

/-- The per-event sort of entries: `(a,b) => a.position - b.position`. -/
def entryLe (a b : ResultEntry) : Prop := a.position ≤ b.position

instance entryLe.decidableRel : DecidableRel entryLe :=
  fun a b => inferInstanceAs (Decidable (a.position ≤ b.position))

instance entryLe.isTotal : IsTotal ResultEntry entryLe :=
  ⟨fun a b => le_total a.position b.position⟩

instance entryLe.isTrans : IsTrans ResultEntry entryLe :=
  ⟨fun _ _ _ hab hbc => le_trans hab hbc⟩

/-- One scored outcome: `{ driverId, pts, pos, status, fastestLapApplied }`. -/
structure ScoredOutcome where
  driverId : String
  pts : Int
  pos : Int
  status : String
  fastestLapApplied : Bool
deriving DecidableEq, Repr

/-- The body of `scoreEventEntries`'s `.map`: base points for a finisher, the
fastest-lap bonus when the event is a GP, the flag is set and the position is
in the top ten. -/
def scoreOne (event : Event) (r : ResultEntry) : ScoredOutcome :=
  let base : Int := if r.status = "FIN" then computePointsFor r.position event.type else 0
  let flApplies : Bool := decide (event.type = "GP") && r.fastestLap && decide (r.position ≤ 10)
  let fl : Int := if flApplies then 1 else 0
  { driverId := r.driverId
    pts := base + fl
    pos := r.position
    status := r.status
    fastestLapApplied := flApplies }

/-- `scoreEventEntries(event, entries)`: sort a copy of the entries by
position, then score each one. -/
def scoreEventEntries (event : Event) (entries : List ResultEntry) :
    List ScoredOutcome :=
  (entries.insertionSort entryLe).map (scoreOne event)

/-! ## Standings builder (`buildStandings`) -/

/-- The per-driver statistics record accumulated by `buildStandings`. -/
structure DriverStat where
  points : Int
  wins : Int
  podiums : Int
  bestFinish : Int
  finishes : List Int
deriving DecidableEq, Repr

/-- `{ points: 0, wins: 0, podiums: 0, bestFinish: 99, finishes: [] }` -/
def initStat : DriverStat :=
  { points := 0, wins := 0, podiums := 0, bestFinish := 99, finishes := [] }

/-- `driverById[id]`: the lookup map built by `Object.fromEntries`, where a
later driver with the same id overwrites an earlier one. -/
def driverById (drivers : List Driver) (id : String) : Option Driver :=
  drivers.reverse.find? (fun d => d.id = id)

/-- The points one result entry earns in an event of the given type:
`basePts + flBonus`. -/
def entryPts («type» : String) (r : ResultEntry) : Int :=
  (if r.status = "FIN" then computePointsFor r.position «type» else 0) +
  (if decide («type» = "GP") && r.fastestLap && decide (r.position ≤ 10) then 1 else 0)

/-- The aggregation state: the `driverStats` map and the `teamPoints` map. -/
def AggState : Type := (String → Option DriverStat) × (String → Option Int)

/-- The constructors part of the loop body:
`const drv = driverById[r.driverId]; if (drv?.teamId) teamPoints.set(drv.teamId, (teamPoints.get(drv.teamId) || 0) + pts);`. -/
def teamUpdate (drivers : List Driver) (tp : String → Option Int)
    (did : String) (pts : Int) : String → Option Int :=
  match driverById drivers did with
  | some drv =>
    if drv.teamId ≠ "" then
      fun id => if id = drv.teamId
                then some ((tp drv.teamId).getD 0 + pts)
                else tp id
    else tp
  | none => tp

/-- The body of the inner `for (const r of entries)` loop of `buildStandings`:
skip unknown drivers, accumulate points/wins/podiums/bestFinish/finishes and
the driver's team total. -/
def applyEntry (drivers : List Driver) («type» : String) (st : AggState)
    (r : ResultEntry) : AggState :=
  match st.1 r.driverId with
  | none => st
  | some d =>
    let pts := entryPts «type» r
    let d' : DriverStat :=
      { points := d.points + pts
        wins := d.wins + (if r.position = 1 then 1 else 0)
        podiums := d.podiums + (if r.position ≤ 3 then 1 else 0)
        bestFinish := min d.bestFinish r.position
        finishes := d.finishes ++ [r.position] }
    let stats' : String → Option DriverStat :=
      fun id => if id = r.driverId then some d' else st.1 id
    (stats', teamUpdate drivers st.2 r.driverId pts)

/-- The entries of one event, sorted by position:
`(resultsByEvent[e.id] || []).slice().sort((a,b) => a.position - b.position)`. -/
def eventEntries (results : List ResultEntry) (e : Event) : List ResultEntry :=
  (results.filter (fun r => (r.eventId = e.id : Bool))).insertionSort entryLe

/-- Processing one event inside the `for (const e of events)` loop. -/
def applyEvent (drivers : List Driver) (results : List ResultEntry)
    (st : AggState) (e : Event) : AggState :=
  (eventEntries results e).foldl (applyEntry drivers e.type) st

/-- The initial `driverStats` map: the loop
`for (const d of drivers) driverStats.set(d.id, {...sentinel values})` keys a
sentinel record for exactly the roster's driver ids. -/
def stats0 (drivers : List Driver) : String → Option DriverStat :=
  fun id => if drivers.any (fun d => (d.id = id : Bool)) then some initStat else none

/-- The initial `teamPoints` map: `for (const t of teams) teamPoints.set(t.id, 0)`. -/
def tp0 (teams : List Team) : String → Option Int :=
  fun id => if teams.any (fun t => (t.id = id : Bool)) then some 0 else none

/-- The aggregation phase of `buildStandings`: driver stats keyed for every
known driver (sentinel values), team points zeroed for every known team, then
every event's sorted entries folded in. -/
def aggregate (drivers : List Driver) (teams : List Team)
    (events : List Event) (results : List ResultEntry) : AggState :=
  events.foldl (applyEvent drivers results) (stats0 drivers, tp0 teams)

/-- The driver leaderboard order: points desc, wins desc, podiums desc,
bestFinish asc, name asc. -/
def driverRowLe : Driver × DriverStat → Driver × DriverStat → Prop :=
  keyLe (fun p => -p.2.points) (keyLe (fun p => -p.2.wins)
    (keyLe (fun p => -p.2.podiums) (keyLe (fun p => p.2.bestFinish)
      (fun a b => a.1.name ≤ b.1.name))))

instance nameLeDriver.isTotal :
    IsTotal (Driver × DriverStat) (fun a b => a.1.name ≤ b.1.name) :=
  ⟨fun a b => le_total a.1.name b.1.name⟩

instance nameLeDriver.isTrans :
    IsTrans (Driver × DriverStat) (fun a b => a.1.name ≤ b.1.name) :=
  ⟨fun _ _ _ hab hbc => le_trans hab hbc⟩

instance nameLeDriver.decidableRel :
    DecidableRel (fun (a b : Driver × DriverStat) => a.1.name ≤ b.1.name) :=
  fun a b => inferInstanceAs (Decidable (a.1.name ≤ b.1.name))

instance driverRowLe.decidableRel : DecidableRel driverRowLe :=
  inferInstanceAs (DecidableRel (keyLe (fun p : Driver × DriverStat => -p.2.points) (keyLe (fun p => -p.2.wins)
    (keyLe (fun p => -p.2.podiums) (keyLe (fun p => p.2.bestFinish)
      (fun a b => a.1.name ≤ b.1.name))))))

instance driverRowLe.isTotal : IsTotal (Driver × DriverStat) driverRowLe :=
  inferInstanceAs (IsTotal _ (keyLe (fun p : Driver × DriverStat => -p.2.points) (keyLe (fun p => -p.2.wins)
    (keyLe (fun p => -p.2.podiums) (keyLe (fun p => p.2.bestFinish)
      (fun a b => a.1.name ≤ b.1.name))))))

instance driverRowLe.isTrans : IsTrans (Driver × DriverStat) driverRowLe :=
  inferInstanceAs (IsTrans _ (keyLe (fun p : Driver × DriverStat => -p.2.points) (keyLe (fun p => -p.2.wins)
    (keyLe (fun p => -p.2.podiums) (keyLe (fun p => p.2.bestFinish)
      (fun a b => a.1.name ≤ b.1.name))))))

/-- The team leaderboard order: points desc, then name asc. -/
def teamRowLe : Team × Int → Team × Int → Prop :=
  keyLe (fun p => -p.2) (fun a b => a.1.name ≤ b.1.name)

instance nameLeTeam.isTotal :
    IsTotal (Team × Int) (fun a b => a.1.name ≤ b.1.name) :=
  ⟨fun a b => le_total a.1.name b.1.name⟩

instance nameLeTeam.isTrans :
    IsTrans (Team × Int) (fun a b => a.1.name ≤ b.1.name) :=
  ⟨fun _ _ _ hab hbc => le_trans hab hbc⟩

instance nameLeTeam.decidableRel :
    DecidableRel (fun (a b : Team × Int) => a.1.name ≤ b.1.name) :=
  fun a b => inferInstanceAs (Decidable (a.1.name ≤ b.1.name))

instance teamRowLe.decidableRel : DecidableRel teamRowLe :=
  inferInstanceAs (DecidableRel (keyLe (fun p : Team × Int => -p.2)
    (fun (a b : Team × Int) => a.1.name ≤ b.1.name)))

instance teamRowLe.isTotal : IsTotal (Team × Int) teamRowLe :=
  inferInstanceAs (IsTotal _ (keyLe (fun p : Team × Int => -p.2)
    (fun (a b : Team × Int) => a.1.name ≤ b.1.name)))

instance teamRowLe.isTrans : IsTrans (Team × Int) teamRowLe :=
  inferInstanceAs (IsTrans _ (keyLe (fun p : Team × Int => -p.2)
    (fun (a b : Team × Int) => a.1.name ≤ b.1.name)))

/-- `buildStandings({drivers, teams, events, results, driverById})`: aggregate,
then build one row per driver (`{driver: d, ...driverStats.get(d.id)}`) and one
row per team (`{team: t, points: teamPoints.get(t.id) || 0}`), each list sorted
by its comparator. A row is modelled as a pair. -/
def buildStandings (drivers : List Driver) (teams : List Team)
    (events : List Event) (results : List ResultEntry) :
    List (Driver × DriverStat) × List (Team × Int) :=
  let final := aggregate drivers teams events results
  let driverRows :=
    (drivers.map (fun d => (d, (final.1 d.id).getD initStat))).insertionSort driverRowLe
  let teamRows :=
    (teams.map (fun t => (t, (final.2 t.id).getD 0))).insertionSort teamRowLe
  (driverRows, teamRows)

/-! ## Closed-form characterizations used by the aggregation proofs -/

/-- The predicate "this driver id is on the roster" (the domain of the
`driverStats` map). -/
def knownDriver (drivers : List Driver) (id : String) : Bool :=
  drivers.any (fun d => (d.id = id : Bool))

/-- The total points driver `id` earns from a list of entries of one event. -/
def ptsSum («type» : String) (id : String) (rs : List ResultEntry) : Int :=
  ((rs.filter (fun r => (r.driverId = id : Bool))).map (entryPts «type»)).sum

/-- The total points driver `id` earns across a list of events. -/
def evPtsSum (results : List ResultEntry) (id : String)
    (events : List Event) : Int :=
  (events.map (fun e => ptsSum e.type id (eventEntries results e))).sum

/-- Whether one entry adds to team `tid`'s running total: its driver is on the
roster and resolves (through `driverById`) to a driver whose non-empty team id
is `tid`. -/
def teamHit (drivers : List Driver) (tid : String) (r : ResultEntry) : Bool :=
  knownDriver drivers r.driverId &&
    (match driverById drivers r.driverId with
     | some drv => (!(drv.teamId = "" : Bool)) && (drv.teamId = tid : Bool)
     | none => false)

/-- The total points team `tid` receives from a list of entries of one event. -/
def tpSum (drivers : List Driver) («type» : String) (tid : String)
    (rs : List ResultEntry) : Int :=
  ((rs.filter (teamHit drivers tid)).map (entryPts «type»)).sum

/-- Whether any entry of the list adds to team `tid`'s total. -/
def touched (drivers : List Driver) (tid : String) (rs : List ResultEntry) : Bool :=
  rs.any (teamHit drivers tid)

/-- The total points team `tid` receives across a list of events. -/
def evTpSum (drivers : List Driver) (results : List ResultEntry) (tid : String)
    (events : List Event) : Int :=
  (events.map (fun e => tpSum drivers e.type tid (eventEntries results e))).sum

/-- Whether any event's entries add to team `tid`'s total. -/
def evTouched (drivers : List Driver) (results : List ResultEntry) (tid : String)
    (events : List Event) : Bool :=
  events.any (fun e => touched drivers tid (eventEntries results e))

/-! ## Helper lemmas -/

/-- Mapping a function that fixes every member of a list is the identity. -/
lemma map_id_of_mem {α : Type} (f : α → α) :
    ∀ l : List α, (∀ x ∈ l, f x = x) → l.map f = l
  | [], _ => rfl
  | a :: l, h => by
    rw [List.map_cons, h a (List.mem_cons_self a l),
      map_id_of_mem f l (fun x hx => h x (List.mem_cons_of_mem a hx))]

/-- The sanitizing map of `normalizeResults` is idempotent entrywise. -/
lemma normOne_idem (r : RawResult) : normOne (normOne r) = normOne r := by
  unfold normOne
  congr 1
  · have h1 : (1 : Int) ≤ max 1 (jsNumOr r.position 1) := le_max_left _ _
    have h0 : ¬ max 1 (jsNumOr r.position 1) = 0 := by omega
    rw [jsNumOr, if_neg h0, max_eq_right h1]
  · by_cases hdnf : r.status = "DNF"
    · simp [hdnf]
    · by_cases hdns : r.status = "DNS" <;> simp [hdnf, hdns]

/-- `normOne` keeps the `eventId` and `driverId` fields. -/
lemma normOne_ids (r : RawResult) :
    (normOne r).eventId = r.eventId ∧ (normOne r).driverId = r.driverId :=
  ⟨rfl, rfl⟩

/-- The output of `normalizeResults` is fixed pointwise by the sanitizing map. -/
lemma map_normOne_normalizeResults (l : List RawResult) :
    (normalizeResults l).map normOne = normalizeResults l := by
  refine map_id_of_mem normOne _ (fun x hx => ?_)
  have hx' : x ∈ l.map normOne :=
    (List.perm_insertionSort rawLe (l.map normOne)).mem_iff.1 hx
  rcases List.mem_map.1 hx' with ⟨y, _, rfl⟩
  exact normOne_idem y

/-! ## Stable-sort and fold lemmas for the aggregation phase -/

section SortLemmas

variable {α : Type} (r : α → α → Prop) [DecidableRel r] [IsTotal α r] [IsTrans α r]

/-- Filtering commutes with an ordered insert into a sorted list. -/
lemma filter_orderedInsert (p : α → Bool) (a : α) :
    ∀ l : List α, l.Sorted r →
      (l.orderedInsert r a).filter p =
        if p a then (l.filter p).orderedInsert r a else l.filter p := by
  intro l
  induction l with
  | nil =>
    intro _
    by_cases hpa : p a <;> simp [hpa]
  | cons b m ih =>
    intro hs
    have hsm : m.Sorted r := hs.tail
    by_cases hab : r a b
    · rw [List.orderedInsert_of_le r _ hab]
      by_cases hpa : p a
      · rw [if_pos hpa]
        have hins : ∀ c ∈ (b :: m).filter p, r a c := by
          intro c hc
          have hcm : c ∈ b :: m := List.mem_of_mem_filter hc
          rcases List.mem_cons.1 hcm with hcb | hcm'
          · exact hcb ▸ hab
          · exact Trans.trans hab (List.rel_of_sorted_cons hs c hcm')
        cases hf : (b :: m).filter p with
        | nil => simp [List.filter_cons, hpa, hf]
        | cons c cs =>
          have hac : r a c := by
            refine hins c ?_
            rw [hf]; exact List.mem_cons_self c cs
          rw [List.filter_cons]
          simp only [hpa, if_pos]
          rw [hf, List.orderedInsert_of_le r _ hac]
      · rw [if_neg hpa]
        simp [List.filter_cons, hpa]
    · rw [show (b :: m).orderedInsert r a = b :: m.orderedInsert r a from if_neg hab]
      rw [List.filter_cons, List.filter_cons]
      by_cases hpb : p b
      · simp only [hpb, if_pos]
        rw [ih hsm]
        by_cases hpa : p a
        · rw [if_pos hpa, if_pos hpa,
            show (b :: m.filter p).orderedInsert r a = b :: (m.filter p).orderedInsert r a
              from if_neg hab]
        · rw [if_neg hpa, if_neg hpa]
      · simp only [hpb, if_neg, Bool.false_eq_true, not_false_eq_true]
        rw [ih hsm]

/-- Filtering commutes with the stable sort. -/
lemma filter_insertionSort (p : α → Bool) :
    ∀ l : List α, (l.insertionSort r).filter p = (l.filter p).insertionSort r := by
  intro l
  induction l with
  | nil => rfl
  | cons a l ih =>
    show ((l.insertionSort r).orderedInsert r a).filter p = _
    rw [filter_orderedInsert r p a _ (List.sorted_insertionSort r l), ih,
      List.filter_cons]
    by_cases hpa : p a
    · simp only [hpa, if_pos]
      rfl
    · simp only [hpa, Bool.false_eq_true, if_neg, not_false_eq_true]

end SortLemmas

section FoldLemmas

variable (drivers : List Driver) («type» : String)

/-- One aggregation step never changes which driver ids are present in the
`driverStats` map. -/
lemma applyEntry_stats_isSome (st : AggState) (x : ResultEntry) (id : String) :
    ((applyEntry drivers «type» st x).1 id).isSome = (st.1 id).isSome := by
  rw [applyEntry]
  cases hx : st.1 x.driverId with
  | none => rfl
  | some d =>
    simp only
    by_cases hid : id = x.driverId
    · subst hid
      simp [hx]
    · simp [hid]

/-- A whole entry fold never changes which driver ids are present. -/
lemma foldEntries_stats_isSome :
    ∀ (rs : List ResultEntry) (st : AggState) (id : String),
      (((rs.foldl (applyEntry drivers «type») st).1 id).isSome) = (st.1 id).isSome := by
  intro rs
  induction rs with
  | nil => intro st id; rfl
  | cons x rs ih =>
    intro st id
    rw [List.foldl_cons, ih, applyEntry_stats_isSome]

/-- An aggregation step on an entry whose driver is not in the map is a
no-op. -/
lemma applyEntry_unknown (st : AggState) (x : ResultEntry)
    (hx : st.1 x.driverId = none) : applyEntry drivers «type» st x = st := by
  rw [applyEntry, hx]

/-- The points component of the stats map after folding one event's entries:
the prior points plus the sum of this driver's entry points. -/
lemma foldEntries_points :
    ∀ (rs : List ResultEntry) (st : AggState) (id : String),
      ((rs.foldl (applyEntry drivers «type») st).1 id).map DriverStat.points
        = (st.1 id).map (fun d => d.points + ptsSum «type» id rs) := by
  intro rs
  induction rs with
  | nil =>
    intro st id
    rw [List.foldl_nil]
    cases st.1 id <;> simp [ptsSum]
  | cons x rs ih =>
    intro st id
    rw [List.foldl_cons, ih]
    cases hx : st.1 x.driverId with
    | none =>
      rw [applyEntry_unknown drivers «type» st x hx]
      by_cases hid : x.driverId = id
      · rw [← hid, hx]
        rfl
      · have : ptsSum «type» id (x :: rs) = ptsSum «type» id rs := by
          rw [ptsSum, ptsSum, List.filter_cons, if_neg (by simpa using hid)]
        rw [this]
    | some d0 =>
      rw [applyEntry, hx]
      simp only
      by_cases hid : id = x.driverId
      · subst hid
        simp only [if_pos rfl, hx, if_true, Option.map_some', ptsSum,
          List.filter_cons, decide_eq_true_eq, List.map_cons, List.sum_cons]
        refine congrArg some ?_
        omega
      · simp only [if_neg hid]
        have : ptsSum «type» id (x :: rs) = ptsSum «type» id rs := by
          rw [ptsSum, ptsSum, List.filter_cons,
            if_neg (by simpa using fun h => hid h.symm)]
        rw [this]

/-- A list of entries that never hits team `tid` contributes no points to it. -/
lemma tpSum_eq_zero {tid : String} {rs : List ResultEntry}
    (h : touched drivers tid rs = false) : tpSum drivers «type» tid rs = 0 := by
  have hnil : rs.filter (teamHit drivers tid) = [] := by
    rw [List.filter_eq_nil_iff]
    intro a ha
    rw [touched, List.any_eq_false] at h
    exact h a ha
  rw [tpSum, hnil, List.map_nil, List.sum_nil]

/-- An unknown driver id leaves the team-points map unchanged. -/
lemma teamUpdate_none (tp : String → Option Int) {did : String} (pts : Int)
    (h : driverById drivers did = none) : teamUpdate drivers tp did pts = tp := by
  rw [teamUpdate, h]

/-- A driver with no team affiliation leaves the team-points map unchanged. -/
lemma teamUpdate_some_empty (tp : String → Option Int) {did : String} (pts : Int)
    {drv : Driver} (h : driverById drivers did = some drv)
    (he : drv.teamId = "") : teamUpdate drivers tp did pts = tp := by
  rw [teamUpdate, h]
  simp [he]

/-- A driver with a team affiliation bumps exactly that team's total. -/
lemma teamUpdate_some_team (tp : String → Option Int) {did : String} (pts : Int)
    {drv : Driver} (h : driverById drivers did = some drv)
    (he : ¬ drv.teamId = "") :
    teamUpdate drivers tp did pts =
      fun id => if id = drv.teamId
                then some ((tp drv.teamId).getD 0 + pts)
                else tp id := by
  rw [teamUpdate, h]
  simp [he]

/-- Unfolding `touched` over a cons cell. -/
lemma touched_cons (tid : String) (x : ResultEntry) (rs : List ResultEntry) :
    touched drivers tid (x :: rs)
      = (teamHit drivers tid x || touched drivers tid rs) := by
  rw [touched, List.any_cons, touched]

/-- A cons cell that does not hit the team adds nothing to its total. -/
lemma tpSum_cons_neg {tid : String} {x : ResultEntry} (rs : List ResultEntry)
    (h : teamHit drivers tid x = false) :
    tpSum drivers «type» tid (x :: rs) = tpSum drivers «type» tid rs := by
  rw [tpSum, List.filter_cons, if_neg (by simp [h]), ← tpSum]

/-- The team-points component after folding one event's entries: untouched
teams keep their previous value, touched teams hold the previous value
(defaulting to 0) plus the team's entry-point total. -/
lemma foldEntries_tp :
    ∀ (rs : List ResultEntry) (st : AggState) (tid : String),
      (∀ id, (st.1 id).isSome = knownDriver drivers id) →
      ((rs.foldl (applyEntry drivers «type») st).2 tid)
        = if touched drivers tid rs
          then some ((st.2 tid).getD 0 + tpSum drivers «type» tid rs)
          else st.2 tid := by
  intro rs
  induction rs with
  | nil =>
    intro st tid hdom
    rw [List.foldl_nil, if_neg (by rw [touched, List.any_nil]; exact Bool.false_ne_true)]
  | cons x rs ih =>
    intro st tid hdom
    rw [List.foldl_cons]
    cases hx : st.1 x.driverId with
    | none =>
      have hk : knownDriver drivers x.driverId = false := by
        rw [← hdom x.driverId, hx]; rfl
      have hhit : teamHit drivers tid x = false := by
        rw [teamHit, hk, Bool.false_and]
      rw [applyEntry_unknown drivers «type» st x hx, ih st tid hdom,
        touched_cons drivers tid x rs, hhit, Bool.false_or,
        tpSum_cons_neg drivers «type» rs hhit]
    | some d0 =>
      have hk : knownDriver drivers x.driverId = true := by
        rw [← hdom x.driverId, hx]; rfl
      rw [applyEntry, hx]
      simp only
      have hdom' : ∀ id,
          ((fun id => if id = x.driverId
              then some { points := d0.points + entryPts «type» x,
                          wins := d0.wins + (if x.position = 1 then 1 else 0),
                          podiums := d0.podiums + (if x.position ≤ 3 then 1 else 0),
                          bestFinish := min d0.bestFinish x.position,
                          finishes := d0.finishes ++ [x.position] }
              else st.1 id) id).isSome = knownDriver drivers id := by
        intro id
        by_cases hid : id = x.driverId
        · subst hid
          simp [hk]
        · simp only [if_neg hid]
          exact hdom id
      cases hdrv : driverById drivers x.driverId with
      | none =>
        have hhit : teamHit drivers tid x = false := by
          rw [teamHit, hdrv]
          simp
        rw [teamUpdate_none drivers st.2 (entryPts «type» x) hdrv,
          ih _ tid hdom', touched_cons drivers tid x rs, hhit, Bool.false_or,
          tpSum_cons_neg drivers «type» rs hhit]
      | some drv =>
        by_cases hteam : drv.teamId = ""
        · have hhit : teamHit drivers tid x = false := by
            rw [teamHit, hdrv]
            simp [hteam]
          rw [teamUpdate_some_empty drivers st.2 (entryPts «type» x) hdrv hteam,
            ih _ tid hdom', touched_cons drivers tid x rs, hhit, Bool.false_or,
            tpSum_cons_neg drivers «type» rs hhit]
        · rw [teamUpdate_some_team drivers st.2 (entryPts «type» x) hdrv hteam]
          by_cases htid : tid = drv.teamId
          · subst htid
            have hhit : teamHit drivers drv.teamId x = true := by
              rw [teamHit, hdrv, hk]
              simp [hteam]
            have htc : touched drivers drv.teamId (x :: rs) = true := by
              rw [touched_cons drivers drv.teamId x rs, hhit, Bool.true_or]
            have hsc : tpSum drivers «type» drv.teamId (x :: rs)
                = entryPts «type» x + tpSum drivers «type» drv.teamId rs := by
              rw [tpSum, List.filter_cons, if_pos (by simp [hhit]), List.map_cons,
                List.sum_cons, ← tpSum]
            rw [ih _ _ hdom', htc]
            dsimp only
            rw [if_pos rfl]
            by_cases htr : touched drivers drv.teamId rs = true
            · rw [if_pos htr, Option.getD_some, hsc]
              exact congrArg some (by omega)
            · rw [if_neg htr, hsc,
                tpSum_eq_zero drivers «type» (Bool.eq_false_iff.2 htr)]
              exact congrArg some (by omega)
          · have hhit : teamHit drivers tid x = false := by
              rw [teamHit, hdrv]
              have hb : (drv.teamId = tid : Bool) = false := by
                simp
                exact fun h => htid h.symm
              simp [hb]
            rw [ih _ tid hdom']
            dsimp only
            rw [if_neg htid, touched_cons drivers tid x rs, hhit,
              Bool.false_or, tpSum_cons_neg drivers «type» rs hhit]

end FoldLemmas

section EventFoldLemmas

variable (drivers : List Driver) (results : List ResultEntry)

/-- Unfolding `evPtsSum` over a cons cell. -/
lemma evPtsSum_cons (id : String) (e : Event) (events : List Event) :
    evPtsSum results id (e :: events)
      = ptsSum e.type id (eventEntries results e) + evPtsSum results id events := by
  rw [evPtsSum, List.map_cons, List.sum_cons, evPtsSum]

/-- Unfolding `evTpSum` over a cons cell. -/
lemma evTpSum_cons (tid : String) (e : Event) (events : List Event) :
    evTpSum drivers results tid (e :: events)
      = tpSum drivers e.type tid (eventEntries results e)
        + evTpSum drivers results tid events := by
  rw [evTpSum, List.map_cons, List.sum_cons, evTpSum]

/-- Unfolding `evTouched` over a cons cell. -/
lemma evTouched_cons (tid : String) (e : Event) (events : List Event) :
    evTouched drivers results tid (e :: events)
      = (touched drivers tid (eventEntries results e)
         || evTouched drivers results tid events) := by
  rw [evTouched, List.any_cons, evTouched]

/-- A list of events none of which touches the team contributes nothing. -/
lemma evTpSum_eq_zero {tid : String} {events : List Event}
    (h : evTouched drivers results tid events = false) :
    evTpSum drivers results tid events = 0 := by
  rw [evTpSum]
  refine List.sum_eq_zero ?_
  intro x hx
  rcases List.mem_map.1 hx with ⟨e, he, rfl⟩
  rw [evTouched, List.any_eq_false] at h
  exact tpSum_eq_zero drivers e.type (Bool.eq_false_iff.2 (h e he))

/-- Processing one event keeps the domain of the stats map. -/
lemma applyEvent_stats_isSome (st : AggState) (e : Event) (id : String) :
    ((applyEvent drivers results st e).1 id).isSome = (st.1 id).isSome := by
  rw [applyEvent]
  exact foldEntries_stats_isSome drivers e.type _ st id

/-- The points component of the stats map after folding a list of events. -/
lemma foldEvents_points :
    ∀ (events : List Event) (st : AggState) (id : String),
      ((events.foldl (applyEvent drivers results) st).1 id).map DriverStat.points
        = (st.1 id).map (fun d => d.points + evPtsSum results id events) := by
  intro events
  induction events with
  | nil =>
    intro st id
    rw [List.foldl_nil]
    cases st.1 id <;> simp [evPtsSum]
  | cons e events ih =>
    intro st id
    rw [List.foldl_cons, ih]
    have h2 : ((applyEvent drivers results st e).1 id).map
          (fun d => d.points + evPtsSum results id events)
        = (((applyEvent drivers results st e).1 id).map DriverStat.points).map
            (fun q => q + evPtsSum results id events) := by
      rw [Option.map_map]
      rfl
    rw [h2,
      show applyEvent drivers results st e
        = (eventEntries results e).foldl (applyEntry drivers e.type) st from rfl,
      foldEntries_points drivers e.type (eventEntries results e) st id,
      Option.map_map]
    cases st.1 id with
    | none => rfl
    | some d =>
      rw [Option.map_some', Option.map_some']
      refine congrArg some ?_
      show d.points + ptsSum e.type id (eventEntries results e)
          + evPtsSum results id events = d.points + evPtsSum results id (e :: events)
      rw [evPtsSum_cons]
      omega

/-- The team-points component after folding a list of events. -/
lemma foldEvents_tp :
    ∀ (events : List Event) (st : AggState) (tid : String),
      (∀ id, (st.1 id).isSome = knownDriver drivers id) →
      ((events.foldl (applyEvent drivers results) st).2 tid)
        = if evTouched drivers results tid events
          then some ((st.2 tid).getD 0 + evTpSum drivers results tid events)
          else st.2 tid := by
  intro events
  induction events with
  | nil =>
    intro st tid hdom
    rw [List.foldl_nil,
      if_neg (by rw [evTouched, List.any_nil]; exact Bool.false_ne_true)]
  | cons e events ih =>
    intro st tid hdom
    have hdom' : ∀ id, ((applyEvent drivers results st e).1 id).isSome
        = knownDriver drivers id := by
      intro id
      rw [applyEvent_stats_isSome]
      exact hdom id
    have h1 : (applyEvent drivers results st e).2 tid
        = if touched drivers tid (eventEntries results e)
          then some ((st.2 tid).getD 0
            + tpSum drivers e.type tid (eventEntries results e))
          else st.2 tid :=
      foldEntries_tp drivers e.type (eventEntries results e) st tid hdom
    rw [List.foldl_cons, ih _ tid hdom']
    by_cases hte : touched drivers tid (eventEntries results e) = true
    · have hcons : evTouched drivers results tid (e :: events) = true := by
        rw [evTouched_cons, hte, Bool.true_or]
      by_cases htr : evTouched drivers results tid events = true
      · rw [if_pos htr, h1, if_pos hte, hcons, if_pos rfl, Option.getD_some,
          evTpSum_cons]
        exact congrArg some (by omega)
      · rw [if_neg htr, h1, if_pos hte, hcons, if_pos rfl, evTpSum_cons,
          evTpSum_eq_zero drivers results (Bool.eq_false_iff.2 htr)]
        exact congrArg some (by omega)
    · have hse : tpSum drivers e.type tid (eventEntries results e) = 0 :=
        tpSum_eq_zero drivers e.type (Bool.eq_false_iff.2 hte)
      have h1' : (applyEvent drivers results st e).2 tid = st.2 tid := by
        rw [h1, if_neg hte]
      by_cases htr : evTouched drivers results tid events = true
      · have hcons : evTouched drivers results tid (e :: events) = true := by
          rw [evTouched_cons, htr, Bool.or_true]
        rw [if_pos htr, h1', hcons, if_pos rfl, evTpSum_cons, hse]
        exact congrArg some (by omega)
      · have hcons : evTouched drivers results tid (e :: events) = false := by
          rw [evTouched_cons, Bool.eq_false_iff.2 hte, Bool.eq_false_iff.2 htr]
          rfl
        rw [if_neg htr, h1', hcons, if_neg Bool.false_ne_true]

end EventFoldLemmas

/-- The initial stats map holds exactly the roster's driver ids. -/
lemma stats0_isSome (drivers : List Driver) (id : String) :
    (stats0 drivers id).isSome = knownDriver drivers id := by
  rw [stats0, knownDriver]
  by_cases h : drivers.any (fun d => (d.id = id : Bool)) = true
  · rw [if_pos h, h]
    rfl
  · rw [if_neg h]
    exact (Bool.eq_false_iff.2 h).symm

/-- Closed form of the aggregation's per-driver points. -/
lemma aggregate_points_closed (drivers : List Driver) (teams : List Team)
    (events : List Event) (results : List ResultEntry) (id : String) :
    ((aggregate drivers teams events results).1 id).map DriverStat.points
      = (stats0 drivers id).map (fun d => d.points + evPtsSum results id events) :=
  foldEvents_points drivers results events (stats0 drivers, tp0 teams) id

/-- Closed form of the aggregation's per-team points. -/
lemma aggregate_tp_closed (drivers : List Driver) (teams : List Team)
    (events : List Event) (results : List ResultEntry) (tid : String) :
    (aggregate drivers teams events results).2 tid
      = if evTouched drivers results tid events
        then some ((tp0 teams tid).getD 0 + evTpSum drivers results tid events)
        else tp0 teams tid :=
  foldEvents_tp drivers results events (stats0 drivers, tp0 teams) tid
    (fun id => stats0_isSome drivers id)

/-- `List.any` only depends on the multiset of elements. -/
lemma perm_any {α : Type} {l₁ l₂ : List α} (h : l₁.Perm l₂) (p : α → Bool) :
    l₁.any p = l₂.any p := by
  cases ha : l₁.any p
  · symm
    rw [List.any_eq_false] at ha ⊢
    intro x hx
    exact ha x (h.mem_iff.2 hx)
  · symm
    rw [List.any_eq_true] at ha ⊢
    obtain ⟨x, hx, hp⟩ := ha
    exact ⟨x, h.mem_iff.1 hx, hp⟩

section SkipLemmas

variable (drivers : List Driver) («type» : String)

/-- Entries of unknown drivers are no-ops, so a fold may drop them. -/
lemma foldEntries_filter_known :
    ∀ (l : List ResultEntry) (st : AggState),
      (∀ id, (st.1 id).isSome = knownDriver drivers id) →
      l.foldl (applyEntry drivers «type») st
        = (l.filter (fun x => knownDriver drivers x.driverId)).foldl
            (applyEntry drivers «type») st := by
  intro l
  induction l with
  | nil => intro st _; rfl
  | cons x l ih =>
    intro st hdom
    rw [List.foldl_cons, List.filter_cons]
    by_cases hx : knownDriver drivers x.driverId = true
    · rw [if_pos hx, List.foldl_cons]
      exact ih _ (fun id => by
        rw [applyEntry_stats_isSome]
        exact hdom id)
    · have hnone : st.1 x.driverId = none := by
        cases hsome : st.1 x.driverId with
        | none => rfl
        | some d =>
          exfalso
          apply hx
          rw [← hdom x.driverId, hsome]
          rfl
      rw [applyEntry_unknown drivers «type» st x hnone, if_neg hx]
      exact ih st hdom

/-- A fold over entries none of which belongs to driver `id` leaves that
driver's stats untouched. -/
lemma foldEntries_stats_unchanged :
    ∀ (rs : List ResultEntry) (st : AggState) (id : String),
      (∀ x ∈ rs, ¬ x.driverId = id) →
      ((rs.foldl (applyEntry drivers «type») st).1 id) = st.1 id := by
  intro rs
  induction rs with
  | nil => intro st id _; rfl
  | cons x rs ih =>
    intro st id h
    rw [List.foldl_cons, ih _ id (fun y hy => h y (List.mem_cons_of_mem x hy))]
    cases hx : st.1 x.driverId with
    | none => rw [applyEntry_unknown drivers «type» st x hx]
    | some d =>
      rw [applyEntry, hx]
      dsimp only
      rw [if_neg (fun hh => (h x (List.mem_cons_self x rs)) hh.symm)]

/-- A fold over entries none of which resolves to team `tid` leaves that
team's total untouched. -/
lemma foldEntries_tp_unchanged :
    ∀ (rs : List ResultEntry) (st : AggState) (tid : String),
      (∀ x ∈ rs, ∀ drv : Driver,
        driverById drivers x.driverId = some drv → ¬ drv.teamId = tid) →
      ((rs.foldl (applyEntry drivers «type») st).2 tid) = st.2 tid := by
  intro rs
  induction rs with
  | nil => intro st tid _; rfl
  | cons x rs ih =>
    intro st tid h
    rw [List.foldl_cons, ih _ tid (fun y hy => h y (List.mem_cons_of_mem x hy))]
    cases hx : st.1 x.driverId with
    | none => rw [applyEntry_unknown drivers «type» st x hx]
    | some d =>
      rw [applyEntry, hx]
      dsimp only
      cases hdrv : driverById drivers x.driverId with
      | none => rw [teamUpdate_none drivers st.2 _ hdrv]
      | some drv =>
        by_cases hteam : drv.teamId = ""
        · rw [teamUpdate_some_empty drivers st.2 _ hdrv hteam]
        · rw [teamUpdate_some_team drivers st.2 _ hdrv hteam]
          dsimp only
          rw [if_neg (fun hh =>
            h x (List.mem_cons_self x rs) drv hdrv hh.symm)]

end SkipLemmas

section SkipEventLemmas

variable (drivers : List Driver) (results : List ResultEntry)

/-- Members of an event's sorted entry list are results. -/
lemma mem_of_mem_eventEntries {x : ResultEntry} {e : Event}
    (hx : x ∈ eventEntries results e) : x ∈ results := by
  rw [eventEntries] at hx
  exact List.mem_of_mem_filter ((List.mem_insertionSort entryLe).1 hx)

/-- A fold over events none of whose results belongs to driver `id` leaves
that driver's stats untouched. -/
lemma foldEvents_stats_unchanged :
    ∀ (events : List Event) (st : AggState) (id : String),
      (∀ x ∈ results, ¬ x.driverId = id) →
      ((events.foldl (applyEvent drivers results) st).1 id) = st.1 id := by
  intro events
  induction events with
  | nil => intro st id _; rfl
  | cons e events ih =>
    intro st id h
    rw [List.foldl_cons, ih _ id h]
    exact foldEntries_stats_unchanged drivers e.type (eventEntries results e) st id
      (fun x hx => h x (mem_of_mem_eventEntries results hx))

/-- A fold over events none of whose results resolves to team `tid` leaves
that team's total untouched. -/
lemma foldEvents_tp_unchanged :
    ∀ (events : List Event) (st : AggState) (tid : String),
      (∀ x ∈ results, ∀ drv : Driver,
        driverById drivers x.driverId = some drv → ¬ drv.teamId = tid) →
      ((events.foldl (applyEvent drivers results) st).2 tid) = st.2 tid := by
  intro events
  induction events with
  | nil => intro st tid _; rfl
  | cons e events ih =>
    intro st tid h
    rw [List.foldl_cons, ih _ tid h]
    exact foldEntries_tp_unchanged drivers e.type (eventEntries results e) st tid
      (fun x hx => h x (mem_of_mem_eventEntries results hx))

end SkipEventLemmas

/-- Processing one event only depends on the event's known-driver entries. -/
lemma applyEvent_results_congr (drivers : List Driver)
    (R1 R2 : List ResultEntry)
    (h : ∀ e : Event,
      (R1.filter (fun x => (x.eventId = e.id : Bool))).filter
          (fun x => knownDriver drivers x.driverId)
        = (R2.filter (fun x => (x.eventId = e.id : Bool))).filter
            (fun x => knownDriver drivers x.driverId)) :
    ∀ (st : AggState) (e : Event),
      (∀ id, (st.1 id).isSome = knownDriver drivers id) →
      applyEvent drivers R1 st e = applyEvent drivers R2 st e := by
  intro st e hdom
  have key : ∀ R : List ResultEntry,
      (eventEntries R e).foldl (applyEntry drivers e.type) st
        = (((R.filter (fun x => (x.eventId = e.id : Bool))).filter
              (fun x => knownDriver drivers x.driverId)).insertionSort
            entryLe).foldl (applyEntry drivers e.type) st := by
    intro R
    rw [eventEntries, foldEntries_filter_known drivers e.type _ st hdom,
      filter_insertionSort entryLe _ _]
  rw [applyEvent, applyEvent, key R1, key R2, h e]

/-! ## C1 — points table -/

set_option maxHeartbeats 1000000 in
/-- C1: for every integer position the points lookup is total and matches the
fixed tables: the GrandPrix table 25,18,15,12,10,8,6,4,2,1 on positions 1–10
and 0 outside, the Sprint table 8,7,6,5,4,3,2,1 on positions 1–8 and 0
outside; being a total Lean function it never faults on any integer input. -/
theorem computePointsFor_matches_tables :
    ∀ p : Int, computePointsFor p "GP" = gpPointsSpec p ∧
      computePointsFor p "Sprint" = sprintPointsSpec p := by
  have hGP : ¬ ("GP" : String) = "Sprint" := by decide
  have hlenR : ((RACE_POINTS.length : Nat) : Int) = 10 := by rfl
  have hlenS : ((SPRINT_POINTS.length : Nat) : Int) = 8 := by rfl
  intro p
  constructor
  · rw [computePointsFor, if_neg hGP, hlenR]
    by_cases h : 1 ≤ p ∧ p ≤ 10
    · rw [if_pos h]
      obtain ⟨h1, h2⟩ := h
      interval_cases p <;> decide
    · rw [if_neg h]
      rw [gpPointsSpec]
      split_ifs <;> omega
  · rw [computePointsFor, if_pos rfl, hlenS]
    by_cases h : 1 ≤ p ∧ p ≤ 8
    · rw [if_pos h]
      obtain ⟨h1, h2⟩ := h
      interval_cases p <;> decide
    · rw [if_neg h]
      rw [sprintPointsSpec]
      split_ifs <;> omega

/-! ## C2 — fastest-lap bonus -/

/-- C2: a scored result carries the +1 fastest-lap bonus exactly when the
event type is `"GP"`, the flag is claimed and the position is at most 10; the
bonus is independent of the status, and a Sprint result with the flag set
never gains the +1 (its points are the base points alone). -/
theorem fastestLap_bonus_iff :
    ∀ (e : Event) (r : ResultEntry),
      ((scoreOne e r).fastestLapApplied = true ↔
        (e.type = "GP" ∧ r.fastestLap = true ∧ r.position ≤ 10))
      ∧ (∀ s : String, (scoreOne e { r with status := s }).fastestLapApplied
            = (scoreOne e r).fastestLapApplied)
      ∧ (scoreOne e r).pts =
          (if r.status = "FIN" then computePointsFor r.position e.type else 0)
          + (if (scoreOne e r).fastestLapApplied then 1 else 0)
      ∧ (e.type = "Sprint" →
          (scoreOne e r).fastestLapApplied = false ∧
          (scoreOne e r).pts =
            (if r.status = "FIN" then computePointsFor r.position "Sprint" else 0)) := by
  intro e r
  refine ⟨?_, fun s => rfl, ?_, fun hS => ?_⟩
  · simp [scoreOne, Bool.and_eq_true, decide_eq_true_eq, and_assoc]
  · simp [scoreOne]
  · have hGP : ¬ e.type = "GP" := by rw [hS]; decide
    constructor
    · simp [scoreOne, hGP]
    · simp [scoreOne, hGP, hS]

/-- Witness for C2 at a concrete Sprint result with the flag claimed. -/
theorem fastestLap_bonus_iff_witness :
    (scoreOne { id := "e2", name := "S1", round := 2, date := "", type := "Sprint" }
      { eventId := "e2", driverId := "d1", position := 1, status := "FIN",
        fastestLap := true }).fastestLapApplied = false :=
  ((fastestLap_bonus_iff
    { id := "e2", name := "S1", round := 2, date := "", type := "Sprint" }
    { eventId := "e2", driverId := "d1", position := 1, status := "FIN",
      fastestLap := true }).2.2.2 rfl).1

/-! ## C6 — normalizer mapping and ordering -/

/-- C6: the normalizer coerces a missing/non-numeric, zero or negative
position to 1 and keeps a positive one, so every output position is ≥ 1;
it keeps a status that is one of the three known strings and defaults any
other to `"FIN"`; it coerces the fastest-lap flag to a boolean; it preserves
the ids; and its output is sorted by event id and then position. -/
theorem normalizeResults_spec :
    ∀ (l : List RawResult) (r : RawResult) (n : Int) (b : Bool),
      List.Sorted rawLe (normalizeResults l)
      ∧ (normalizeResults l).Perm (l.map normOne)
      ∧ (normOne { r with position := none }).position = some 1
      ∧ (normOne { r with position := some n }).position =
          some (if n ≤ 0 then 1 else n)
      ∧ (∃ p : Int, (normOne r).position = some p ∧ 1 ≤ p)
      ∧ (normOne r).status =
          (if r.status = "FIN" ∨ r.status = "DNF" ∨ r.status = "DNS"
           then r.status else "FIN")
      ∧ (normOne { r with fastestLap := none }).fastestLap = some false
      ∧ (normOne { r with fastestLap := some b }).fastestLap = some b
      ∧ (normOne r).eventId = r.eventId ∧ (normOne r).driverId = r.driverId := by
  intro l r n b
  refine ⟨List.sorted_insertionSort rawLe _, List.perm_insertionSort rawLe _,
    rfl, ?_, ⟨max 1 (jsNumOr r.position 1), rfl, le_max_left _ _⟩, ?_, rfl, ?_, rfl, rfl⟩
  · show some (max 1 (jsNumOr (some n) 1)) = some (if n ≤ 0 then 1 else n)
    rw [jsNumOr]
    refine congrArg some ?_
    split_ifs <;> omega
  · show (if r.status = "DNF" then "DNF"
        else if r.status = "DNS" then "DNS" else "FIN") = _
    by_cases hfin : r.status = "FIN"
    · simp [hfin]
    · by_cases hdnf : r.status = "DNF"
      · simp [hdnf]
      · by_cases hdns : r.status = "DNS" <;> simp [hfin, hdnf, hdns]
  · show some (jsTruthy (some b)) = some b
    rfl

/-! ## C7 — normalizer idempotence -/

/-- C7: normalizing an already-normalized list returns exactly the same
list, entries and order included. -/
theorem normalizeResults_idempotent :
    ∀ l : List RawResult,
      normalizeResults (normalizeResults l) = normalizeResults l := by
  intro l
  show ((normalizeResults l).map normOne).insertionSort rawLe = normalizeResults l
  rw [map_normOne_normalizeResults]
  exact (List.sorted_insertionSort rawLe (l.map normOne)).insertionSort_eq

/-! ## C8 — bulk replace and duplicate (eventId, driverId) pairs -/

/-- C8 counterexample: a bulk replace whose input holds two entries for the
same `(eventId, driverId)` pair stores both of them — the stored set does
not contain at most one entry per pair, so the last-write-wins claim fails. -/
theorem bulkReplace_dup_counterexample :
    ¬ ((bulkReplaceEventResults [] "e"
        [{ eventId := "e", driverId := "d", position := some 1, status := "FIN",
           fastestLap := some false },
         { eventId := "e", driverId := "d", position := some 2, status := "FIN",
           fastestLap := some false }]).countP
        (fun r => decide (r.eventId = "e") && decide (r.driverId = "d")) ≤ 1) := by
  intro hle
  rw [bulkReplaceEventResults, normalizeResults,
    (List.perm_insertionSort rawLe _).countP_eq] at hle
  revert hle
  decide

/-- C8 amended: a bulk replace never deduplicates — the stored list is a
permutation of the normalized images of the kept-previous entries plus all
supplied entries, and for every `(eventId, driverId)` pair the stored list has
exactly as many entries as that input, so duplicate pairs all survive. -/
theorem bulkReplace_keeps_all_entries :
    ∀ (prev : List RawResult) (eid : String) (entries : List RawResult),
      (bulkReplaceEventResults prev eid entries).Perm
        ((prev.filter (fun r => !(r.eventId = eid : Bool)) ++ entries).map normOne)
      ∧ ∀ eid' did : String,
        (bulkReplaceEventResults prev eid entries).countP
            (fun r => decide (r.eventId = eid') && decide (r.driverId = did))
        = (prev.filter (fun r => !(r.eventId = eid : Bool)) ++ entries).countP
            (fun r => decide (r.eventId = eid') && decide (r.driverId = did)) := by
  intro prev eid entries
  refine ⟨List.perm_insertionSort rawLe _, fun eid' did => ?_⟩
  show ((((prev.filter _) ++ entries).map normOne).insertionSort rawLe).countP _ = _
  rw [(List.perm_insertionSort rawLe _).countP_eq, List.countP_map]
  exact List.countP_congr (fun r _ => Iff.rfl)

/-! ## C3 — non-finishers: zero base points, position-only win/podium counts -/

/-- C3: folding in a result whose status is not `"FIN"` adds no base points
to the driver (and through them to the team) — only the possible fastest-lap
bonus — regardless of the recorded position, yet it still increments the wins
counter exactly when the position is 1 and the podiums counter exactly when
the position is at most 3, because the win/podium counting looks only at the
position and never at the status. -/
theorem nonFinisher_zero_base_counts :
    ∀ (drivers : List Driver) («type» : String)
      (stats : String → Option DriverStat) (tp : String → Option Int)
      (r : ResultEntry) (d : DriverStat),
      stats r.driverId = some d →
      ¬ r.status = "FIN" →
      ((applyEntry drivers «type» (stats, tp) r).1 r.driverId
        = some { points := d.points +
                   (if decide («type» = "GP") && r.fastestLap
                       && decide (r.position ≤ 10) then 1 else 0)
                 wins := d.wins + (if r.position = 1 then 1 else 0)
                 podiums := d.podiums + (if r.position ≤ 3 then 1 else 0)
                 bestFinish := min d.bestFinish r.position
                 finishes := d.finishes ++ [r.position] })
      ∧ ((applyEntry drivers «type» (stats, tp) r).2
          = teamUpdate drivers tp r.driverId
              (if decide («type» = "GP") && r.fastestLap
                  && decide (r.position ≤ 10) then 1 else 0)) := by
  intro drivers t stats tp r d hst hfin
  have hpts : entryPts t r
      = (if decide (t = "GP") && r.fastestLap && decide (r.position ≤ 10)
         then 1 else 0) := by
    rw [entryPts, if_neg hfin, zero_add]
  constructor
  · rw [applyEntry]
    dsimp only
    rw [hst]
    dsimp only
    rw [if_pos rfl, hpts]
  · rw [applyEntry]
    dsimp only
    rw [hst]
    dsimp only
    rw [hpts]

/-- Witness for C3 at a concrete DNF on position 1 in a GP. -/
theorem nonFinisher_zero_base_counts_witness :
    (applyEntry [{ id := "d1", name := "Alice", country := "", teamId := "t1" }]
      "GP"
      (fun id => if id = "d1" then some initStat else none,
       fun id => if id = "t1" then some 0 else none)
      { eventId := "e1", driverId := "d1", position := 1, status := "DNF",
        fastestLap := false }).1 "d1"
      = some { points := 0 + (if decide (("GP" : String) = "GP") && false
                    && decide ((1 : Int) ≤ 10) then 1 else 0),
               wins := 0 + (if (1 : Int) = 1 then 1 else 0),
               podiums := 0 + (if (1 : Int) ≤ 3 then 1 else 0),
               bestFinish := min 99 1,
               finishes := ([] : List Int) ++ [1] } :=
  (nonFinisher_zero_base_counts
    [{ id := "d1", name := "Alice", country := "", teamId := "t1" }] "GP"
    (fun id => if id = "d1" then some initStat else none)
    (fun id => if id = "t1" then some 0 else none)
    { eventId := "e1", driverId := "d1", position := 1, status := "DNF",
      fastestLap := false }
    initStat (by simp) (by simp)).1

/-! ## C4 — leaderboard ordering -/

/-- C4: the driver leaderboard is sorted by points desc, wins desc, podiums
desc, bestFinish asc, then name asc, and the team leaderboard by points desc
then name asc; the rows are exactly the per-driver/per-team rows (as a
permutation), so the output is a deterministic function of the input. -/
theorem standings_rows_sorted :
    ∀ (drivers : List Driver) (teams : List Team) (events : List Event)
      (results : List ResultEntry),
      List.Sorted driverRowLe (buildStandings drivers teams events results).1
      ∧ List.Sorted teamRowLe (buildStandings drivers teams events results).2
      ∧ (buildStandings drivers teams events results).1.Perm
          (drivers.map (fun d =>
            (d, ((aggregate drivers teams events results).1 d.id).getD initStat)))
      ∧ (buildStandings drivers teams events results).2.Perm
          (teams.map (fun t =>
            (t, ((aggregate drivers teams events results).2 t.id).getD 0))) := by
  intro drivers teams events results
  exact ⟨List.sorted_insertionSort driverRowLe _,
    List.sorted_insertionSort teamRowLe _,
    List.perm_insertionSort driverRowLe _,
    List.perm_insertionSort teamRowLe _⟩

/-! ## C5 — event order does not change point totals -/

/-- C5: permuting the events list leaves every driver's final points total
and every team's final points total unchanged. -/
theorem aggregate_points_perm_invariant :
    ∀ (drivers : List Driver) (teams : List Team) (results : List ResultEntry)
      (events events' : List Event), events.Perm events' →
      (∀ id, ((aggregate drivers teams events results).1 id).map DriverStat.points
        = ((aggregate drivers teams events' results).1 id).map DriverStat.points)
      ∧ (∀ tid, (aggregate drivers teams events results).2 tid
        = (aggregate drivers teams events' results).2 tid) := by
  intro drivers teams results events events' hperm
  constructor
  · intro id
    rw [aggregate_points_closed, aggregate_points_closed]
    have hsum : evPtsSum results id events = evPtsSum results id events' := by
      rw [evPtsSum, evPtsSum]
      exact (hperm.map _).sum_eq
    rw [hsum]
  · intro tid
    rw [aggregate_tp_closed, aggregate_tp_closed]
    have htouch : evTouched drivers results tid events
        = evTouched drivers results tid events' := by
      rw [evTouched, evTouched]
      exact perm_any hperm _
    have hsum : evTpSum drivers results tid events
        = evTpSum drivers results tid events' := by
      rw [evTpSum, evTpSum]
      exact (hperm.map _).sum_eq
    rw [htouch, hsum]

/-- Witness for C5: swapping a GP and a Sprint leaves a driver's points
projection unchanged. -/
theorem aggregate_points_perm_invariant_witness :
    ((aggregate
        [{ id := "d1", name := "Alice", country := "", teamId := "t1" }]
        [{ id := "t1", name := "Red", color := "" }]
        [{ id := "e1", name := "R1", round := 1, date := "", type := "GP" },
         { id := "e2", name := "R2", round := 2, date := "", type := "Sprint" }]
        [{ eventId := "e1", driverId := "d1", position := 1, status := "FIN",
           fastestLap := true },
         { eventId := "e2", driverId := "d1", position := 2, status := "FIN",
           fastestLap := false }]).1 "d1").map DriverStat.points
      = ((aggregate
        [{ id := "d1", name := "Alice", country := "", teamId := "t1" }]
        [{ id := "t1", name := "Red", color := "" }]
        [{ id := "e2", name := "R2", round := 2, date := "", type := "Sprint" },
         { id := "e1", name := "R1", round := 1, date := "", type := "GP" }]
        [{ eventId := "e1", driverId := "d1", position := 1, status := "FIN",
           fastestLap := true },
         { eventId := "e2", driverId := "d1", position := 2, status := "FIN",
           fastestLap := false }]).1 "d1").map DriverStat.points :=
  (aggregate_points_perm_invariant _ _ _ _ _ (List.Perm.swap _ _ _)).1 "d1"

/-! ## C9 — results of deleted drivers are skipped -/

/-- C9: when a result's driverId is not on the roster, the standings builder
(a total Lean function, so it cannot raise) produces exactly the same output
with and without that result: the result is skipped entirely and contributes
zero to every driver total and every team total. -/
theorem unknown_driver_skipped :
    ∀ (drivers : List Driver) (teams : List Team) (events : List Event)
      (pre post : List ResultEntry) (r : ResultEntry),
      (∀ d ∈ drivers, ¬ d.id = r.driverId) →
      buildStandings drivers teams events (pre ++ r :: post)
        = buildStandings drivers teams events (pre ++ post) := by
  intro drivers teams events pre post r hunk
  have hkr : knownDriver drivers r.driverId = false := by
    rw [knownDriver, List.any_eq_false]
    intro d hd
    simpa using hunk d hd
  have hfilters : ∀ e : Event,
      (((pre ++ r :: post).filter (fun x => (x.eventId = e.id : Bool))).filter
          (fun x => knownDriver drivers x.driverId))
        = (((pre ++ post).filter (fun x => (x.eventId = e.id : Bool))).filter
            (fun x => knownDriver drivers x.driverId)) := by
    intro e
    rw [List.filter_append, List.filter_append, List.filter_append,
      List.filter_append, List.filter_cons]
    by_cases hre : (decide (r.eventId = e.id)) = true
    · rw [if_pos hre, List.filter_cons, if_neg (by simp [hkr])]
    · rw [if_neg hre]
  have hagg : aggregate drivers teams events (pre ++ r :: post)
      = aggregate drivers teams events (pre ++ post) := by
    rw [aggregate, aggregate]
    have key : ∀ (evs : List Event) (st : AggState),
        (∀ id, (st.1 id).isSome = knownDriver drivers id) →
        evs.foldl (applyEvent drivers (pre ++ r :: post)) st
          = evs.foldl (applyEvent drivers (pre ++ post)) st := by
      intro evs
      induction evs with
      | nil => intro st _; rfl
      | cons e evs ih =>
        intro st hdom
        rw [List.foldl_cons, List.foldl_cons,
          applyEvent_results_congr drivers _ _ hfilters st e hdom]
        exact ih _ (fun id => by
          rw [applyEvent_stats_isSome]
          exact hdom id)
    exact key events _ (fun id => stats0_isSome drivers id)
  simp only [buildStandings, hagg]

/-- Witness for C9: dropping a result of a driver who is not on the roster
leaves the standings unchanged. -/
theorem unknown_driver_skipped_witness :
    buildStandings [{ id := "d1", name := "Alice", country := "", teamId := "t1" }]
        [{ id := "t1", name := "Red", color := "" }]
        [{ id := "e1", name := "R1", round := 1, date := "", type := "GP" }]
        ([] ++ { eventId := "e1", driverId := "ghost", position := 1,
                 status := "FIN", fastestLap := false } ::
          [{ eventId := "e1", driverId := "d1", position := 2, status := "FIN",
             fastestLap := false }])
      = buildStandings [{ id := "d1", name := "Alice", country := "", teamId := "t1" }]
        [{ id := "t1", name := "Red", color := "" }]
        [{ id := "e1", name := "R1", round := 1, date := "", type := "GP" }]
        ([] ++ [{ eventId := "e1", driverId := "d1", position := 2,
                  status := "FIN", fastestLap := false }]) :=
  unknown_driver_skipped
    [{ id := "d1", name := "Alice", country := "", teamId := "t1" }]
    [{ id := "t1", name := "Red", color := "" }]
    [{ id := "e1", name := "R1", round := 1, date := "", type := "GP" }]
    []
    [{ eventId := "e1", driverId := "d1", position := 2, status := "FIN",
       fastestLap := false }]
    { eventId := "e1", driverId := "ghost", position := 1, status := "FIN",
      fastestLap := false }
    (by decide)

/-! ## C10 — one row per driver and per team, with default values -/

/-- C10: the standings output has exactly one driver row per roster driver and
one team row per team (the projections are permutations of the input lists); a
driver with no matching result keeps the sentinel statistics
`points = 0, wins = 0, podiums = 0, bestFinish = 99, finishes = []`, and a
team none of whose results resolve to it keeps `points = 0`. -/
theorem standings_rows_complete :
    ∀ (drivers : List Driver) (teams : List Team) (events : List Event)
      (results : List ResultEntry),
      ((buildStandings drivers teams events results).1.map Prod.fst).Perm drivers
      ∧ ((buildStandings drivers teams events results).2.map Prod.fst).Perm teams
      ∧ (∀ d ∈ drivers, (∀ x ∈ results, ¬ x.driverId = d.id) →
          (d, initStat) ∈ (buildStandings drivers teams events results).1)
      ∧ (∀ t ∈ teams,
          (∀ x ∈ results, ∀ drv : Driver,
            driverById drivers x.driverId = some drv → ¬ drv.teamId = t.id) →
          (t, (0 : Int)) ∈ (buildStandings drivers teams events results).2) := by
  intro drivers teams events results
  refine ⟨?_, ?_, ?_, ?_⟩
  · refine ((List.perm_insertionSort driverRowLe _).map Prod.fst).trans ?_
    rw [List.map_map]
    rw [show (Prod.fst ∘ fun d : Driver =>
        (d, ((aggregate drivers teams events results).1 d.id).getD initStat))
      = id from rfl, List.map_id]
  · refine ((List.perm_insertionSort teamRowLe _).map Prod.fst).trans ?_
    rw [List.map_map]
    rw [show (Prod.fst ∘ fun t : Team =>
        (t, ((aggregate drivers teams events results).2 t.id).getD 0))
      = id from rfl, List.map_id]
  · intro d hd hno
    have hstats : (aggregate drivers teams events results).1 d.id
        = stats0 drivers d.id := by
      rw [aggregate]
      exact foldEvents_stats_unchanged drivers results events _ d.id hno
    have hsome : stats0 drivers d.id = some initStat := by
      rw [stats0, if_pos (List.any_eq_true.2 ⟨d, hd, by simp⟩)]
    have hrow : (d, initStat) ∈ drivers.map (fun d' : Driver =>
        (d', ((aggregate drivers teams events results).1 d'.id).getD initStat)) := by
      refine List.mem_map.2 ⟨d, hd, ?_⟩
      rw [hstats, hsome, Option.getD_some]
    exact ((List.perm_insertionSort driverRowLe _).mem_iff).2 hrow
  · intro t ht hno
    have htp : (aggregate drivers teams events results).2 t.id
        = tp0 teams t.id := by
      rw [aggregate]
      exact foldEvents_tp_unchanged drivers results events _ t.id hno
    have hsome : tp0 teams t.id = some 0 := by
      rw [tp0, if_pos (List.any_eq_true.2 ⟨t, ht, by simp⟩)]
    have hrow : (t, (0 : Int)) ∈ teams.map (fun t' : Team =>
        (t', ((aggregate drivers teams events results).2 t'.id).getD 0)) := by
      refine List.mem_map.2 ⟨t, ht, ?_⟩
      rw [htp, hsome, Option.getD_some]
    exact ((List.perm_insertionSort teamRowLe _).mem_iff).2 hrow

/-- Witness for C10: a driver with no results keeps the sentinel row. -/
theorem standings_rows_complete_witness :
    ({ id := "d1", name := "Alice", country := "", teamId := "" }, initStat)
      ∈ (buildStandings
          [{ id := "d1", name := "Alice", country := "", teamId := "" }]
          [] [] []).1 :=
  (standings_rows_complete
    [{ id := "d1", name := "Alice", country := "", teamId := "" }]
    [] [] []).2.2.1
    { id := "d1", name := "Alice", country := "", teamId := "" }
    (by decide) (by decide)

end F1
